import Mathlib

/-!
Verification of the C/Yorick wrapper layer of the `c-lbfgsb` repository.

The development shallowly embeds, in Lean 4:

* the task codec of `clbfgsb.c` (`get_task`, `lbfgsb_set_task`,
  `lbfgsb_get_task_string`),
* the bound classifier (`check_bounds`),
* the reverse-communication step (`lbfgsb_iterate`), with the opaque
  L-BFGS-B kernel as a parameter (the Fortran kernel is an external
  collaborator with a documented calling contract),
* context creation / configuration / reset (`lbfgsb_create`,
  `Y_lbfgsb_config`, `lbfgsb_reset`, `Y_lbfgsb_stop` of `ylbfgsb.c`),
* the high-level convergence driver (`lbfgsb` of `lbfgsb.i`), as a
  fuel-indexed loop over a driver state record.

Machine floating-point values appear in two roles.  Bounds need the IEEE
special values (NaN, ±inf) because `check_bounds` branches on them, so they
are modelled by the four-constructor type `FP` with IEEE comparison
semantics.  The objective values, variables and gradients are modelled by
rationals: the wrapper code only copies, compares and adds them, and the
claims under study are order and control-flow properties that do not depend on
rounding.
-/

namespace LbfgsbModel

/-- The closed task enumeration of `lbfgsb.h` (§3 of the spec). -/
inductive LTask where
  | START
  | FG
  | NEW_X
  | CONVERGENCE
  | STOP
  | WARNING
  | ERROR
deriving DecidableEq, Repr

/-- A double-precision bound value: NaN, −∞, +∞ or a finite number
(the finite part modelled by a rational). -/
inductive FP where
  | nan
  | ninf
  | pinf
  | fin (q : ℚ)
deriving DecidableEq, Repr

/-- Model of `isnan(a)` of `math.h`. -/
def FP.isnan : FP → Bool
  | .nan => true
  | _ => false

/-- IEEE `a > b`: false whenever either operand is NaN. -/
def FP.gt : FP → FP → Bool
  | .nan, _ => false
  | _, .nan => false
  | .pinf, .pinf => false
  | .pinf, _ => true
  | _, .pinf => false
  | .ninf, _ => false
  | .fin _, .ninf => true
  | .fin a, .fin b => decide (b < a)

/-- IEEE `a < b`, the mirror of `FP.gt`. -/
def FP.lt (a b : FP) : Bool := FP.gt b a

/-- The predicate "finite" in the sense of the spec's bound classifier: a proper number,
excluding NaN and the ±∞ sentinels. -/
def FP.finite : FP → Bool
  | .fin _ => true
  | _ => false

/-- The NUL terminator character. -/
def NUL : Char := Char.ofNat 0

/-- The width of the kernel's status/reason text buffer:
`#define LBFGSB_TASK_LENGTH 60` in `lbfgsb.h` (the header staged together
with `clbfgsb_test2.c`), matching the Fortran kernel's `character*60 task`. -/
def LBFGSB_TASK_LENGTH : ℕ := 60

/-- Model of `get_task` of `clbfgsb.c`: decode the raw fixed-width status buffer into
a task by matching its first few characters; anything unmatched decodes to
`ERROR`.  The C `switch` on `buf[0]` with nested character tests is
equivalent to this prefix-test chain because the six accepted prefixes are
mutually exclusive. -/
def get_task (buf : List Char) : LTask :=
  if List.isPrefixOf (("FG").toList) buf then LTask.FG
  else if List.isPrefixOf (("NEW_X").toList) buf then LTask.NEW_X
  else if List.isPrefixOf (("CONV").toList) buf then LTask.CONVERGENCE
  else if List.isPrefixOf (("START").toList) buf then LTask.START
  else if List.isPrefixOf (("STOP").toList) buf then LTask.STOP
  else if List.isPrefixOf (("WARN").toList) buf then LTask.WARNING
  else LTask.ERROR

/-- The buffer-filling part of `lbfgsb_set_task` of `clbfgsb.c`: copy the
first `min (length str) 60` characters of `str` and pad the remainder of the
60-character buffer with spaces. -/
def set_task_buf (str : List Char) : List Char :=
  let len1 := min str.length LBFGSB_TASK_LENGTH
  str.take len1 ++ List.replicate (LBFGSB_TASK_LENGTH - len1) ' '

/-- Drop all trailing spaces of a character list.  This is the net effect of
the `ilast` bookkeeping of `lbfgsb_get_task_string` (`clbfgsb.c`): the loop
remembers the last non-space position `ilast` and then terminates the output
at `ilast+1`, which keeps interior spaces and drops trailing ones. -/
def stripTrailingSpaces (l : List Char) : List Char :=
  List.foldr (fun c acc => if c = ' ' ∧ acc = [] then [] else c :: acc) [] l

/-- Model of `lbfgsb_get_task_string` of `clbfgsb.c`, as called by `ylbfgsb.c` with a
buffer of size `LBFGSB_TASK_LENGTH + 1` (so `len = LBFGSB_TASK_LENGTH`): copy
the buffer up to the first NUL (at most 60 characters) and strip the
trailing spaces. -/
def lbfgsb_get_task_string (buf : List Char) : List Char :=
  stripTrailingSpaces (List.takeWhile (fun c => c != NUL) (buf.take LBFGSB_TASK_LENGTH))

/-- The reason-prefix validation of `Y_lbfgsb_stop` (`ylbfgsb.c`): the
reason must start with one of `"CONVERGENCE:"`, `"STOP:"`, `"WARNING:"`,
`"ERROR:"`; the C code switches on the first character and then runs
`strncmp` with the corresponding prefix. -/
def valid_stop_reason (reason : List Char) : Bool :=
  match reason with
  | [] => false
  | c :: _ =>
    match c with
    | 'C' => List.isPrefixOf (("CONVERGENCE:").toList) reason
    | 'S' => List.isPrefixOf (("STOP:").toList) reason
    | 'W' => List.isPrefixOf (("WARNING:").toList) reason
    | 'E' => List.isPrefixOf (("ERROR:").toList) reason
    | _ => false

/-- The optimization context (`lbfgsb_context` of `lbfgsb.h`/`clbfgsb.c`).
The kernel's opaque saved state (`wa`, `iwa`, `csave`, `lsave`, `isave`,
`dsave`) is abstracted by a type parameter `κ`; the status buffer
(`wrks.task`) and the per-variable bound codes (`wrks.nbd`), which the
wrapper reads and writes itself, are kept explicit. -/
structure Ctx (κ : Type) where
  siz : ℕ
  mem : ℕ
  lower : List FP
  upper : List FP
  nbd : List ℤ
  factr : ℚ
  pgtol : ℚ
  print : ℤ
  taskBuf : List Char
  task : LTask
  kstate : κ
deriving DecidableEq

/-- Model of `lbfgsb_set_task` of `clbfgsb.c`: write the reason into the fixed-width
status buffer (truncate/pad) and re-decode the context's task from it. -/
def lbfgsb_set_task (ctx : Ctx κ) (str : List Char) : Ctx κ :=
  let buf := set_task_buf str
  { ctx with taskBuf := buf, task := get_task buf }

/-- Model of `lbfgsb_reset` of `clbfgsb.c`: when `full` is set, reset every lower
bound to −∞, every upper bound to +∞ and every bound code to 0
(unconstrained); in all cases set the task to `START`.  Nothing else of the
context — in particular none of the kernel's saved workspace — is touched. -/
def lbfgsb_reset (ctx : Ctx κ) (full : Bool) : Ctx κ :=
  let ctx1 :=
    if full then
      { ctx with
          lower := List.replicate ctx.siz FP.ninf
          upper := List.replicate ctx.siz FP.pinf
          nbd := List.replicate ctx.siz 0 }
    else ctx
  lbfgsb_set_task ctx1 (("START").toList)

/-- Model of `lbfgsb_create` of `clbfgsb.c`: allocate a context with the default
`factr`, `pgtol` and `print` settings and run a full reset.  The freshly
malloc'ed bound and code arrays hold unspecified values (the `ZEROS` macro
does not actually zero); they are modelled as NaN/0 fillers, which the full
reset immediately overwrites.  `k0` is the kernel saved state after
`memset(ctx, 0, sizeof(lbfgsb_context))`: the saved arrays (`csave`,
`lsave`, `isave`, `dsave`) are embedded in the struct and therefore zeroed,
so a faithful instantiation passes the all-zero value of `κ` (see
`kIsaveZero`); scripted oracle runs may use `κ` as oracle bookkeeping
instead. -/
def lbfgsb_create (n m : ℕ) (k0 : κ) : Ctx κ :=
  lbfgsb_reset
    { siz := n
      mem := m
      lower := List.replicate n FP.nan
      upper := List.replicate n FP.nan
      nbd := List.replicate n 0
      factr := 10000000
      pgtol := 1 / 1000000
      print := -1
      taskBuf := []
      task := LTask.START
      kstate := k0 } true

/-- The error messages of `check_bounds` (`clbfgsb.c`). -/
def msgErrLower : List Char := ("ERROR: Invalid lower bound value").toList

/-- See `msgErrLower`. -/
def msgErrUpper : List Char := ("ERROR: Invalid upper bound value").toList

/-- See `msgErrLower`. -/
def msgErrIncompat : List Char := ("ERROR: Incompatible bounds").toList

/-- The per-index classification of `check_bounds` (`clbfgsb.c`): the kernel
bound code `nbd[i]` as a pure function of the two bounds.  `lo > -INFINITY`
means a lower bound is present, `hi < +INFINITY` an upper bound. -/
def classify (lo hi : FP) : ℤ :=
  if FP.gt lo FP.ninf then (if FP.lt hi FP.pinf then 2 else 1)
  else (if FP.lt hi FP.pinf then 3 else 0)

/-- The loop of `check_bounds` (`clbfgsb.c`), walking the three arrays in
step: at the first index whose bounds are NaN or incompatible it stops with
the corresponding error message, leaving the remaining codes untouched;
otherwise it stores `classify` of the pair and continues. -/
def check_bounds_loop : List FP → List FP → List ℤ → List ℤ × Option (List Char)
  | lo :: los, hi :: his, b :: bs =>
    if lo.isnan then (b :: bs, some msgErrLower)
    else if hi.isnan then (b :: bs, some msgErrUpper)
    else if FP.gt lo hi then (b :: bs, some msgErrIncompat)
    else
      let r := check_bounds_loop los his bs
      (classify lo hi :: r.1, r.2)
  | _, _, bs => (bs, none)

/-- Model of `check_bounds` of `clbfgsb.c` at the context level: run the loop over
`lower`/`upper`/`nbd`; on failure additionally set the task (to `ERROR`, via
the codec) with the message. -/
def lbfgsb_check_bounds (ctx : Ctx κ) : Ctx κ :=
  match check_bounds_loop ctx.lower ctx.upper ctx.nbd with
  | (nbd1, some e) => lbfgsb_set_task { ctx with nbd := nbd1 } e
  | (nbd1, none) => { ctx with nbd := nbd1 }

/-- One output of the opaque kernel (`setulb_`): its updated saved state,
the raw status buffer it leaves behind, and the (in/out) variables,
objective value and gradient. -/
structure KernelOut (κ : Type) where
  kstate : κ
  taskBuf : List Char
  x : List ℚ
  f : ℚ
  g : List ℚ

/-- The opaque kernel as a function of the context (bounds, codes,
tolerances, saved state) and the in/out `x`, `f`, `g`.  The Fortran kernel
is an external collaborator (spec §6); every theorem about the wrapper is
quantified over it. -/
def Kernel (κ : Type) : Type := Ctx κ → List ℚ → ℚ → List ℚ → KernelOut κ

/-- The result of one `lbfgsb_iterate` call: the updated context, the
possibly kernel-mutated `x`, `f`, `g`, and the returned task. -/
structure IterResult (κ : Type) where
  ctx : Ctx κ
  x : List ℚ
  f : ℚ
  g : List ℚ
  task : LTask
deriving DecidableEq

/-- Model of `lbfgsb_iterate` of `clbfgsb.c`: on `START` run the bound classifier
first; unless the task is (now) `ERROR`, invoke the kernel exactly once and
decode its status buffer into the new task; on `ERROR` do nothing and
return `ERROR`. -/
def lbfgsb_iterate (kernel : Kernel κ) (ctx : Ctx κ) (x : List ℚ) (f : ℚ) (g : List ℚ) :
    IterResult κ :=
  let ctx1 := if ctx.task = LTask.START then lbfgsb_check_bounds ctx else ctx
  if ctx1.task ≠ LTask.ERROR then
    let out := kernel ctx1 x f g
    let ctx2 :=
      { ctx1 with kstate := out.kstate, taskBuf := out.taskBuf, task := get_task out.taskBuf }
    ⟨ctx2, out.x, out.f, out.g, ctx2.task⟩
  else
    ⟨ctx1, x, f, g, ctx1.task⟩

/-- Model of `Y_lbfgsb_stop` of `ylbfgsb.c`: validate that the reason starts with one
of the four accepted prefixes; if it does, force the task through
`lbfgsb_set_task` and return it (`some task`); otherwise raise
`InvalidReasonError` (`y_error`), which leaves the context untouched
(`none`). -/
def y_lbfgsb_stop (ctx : Ctx κ) (reason : List Char) : Ctx κ × Option LTask :=
  if valid_stop_reason reason then
    let ctx1 := lbfgsb_set_task ctx reason
    (ctx1, some ctx1.task)
  else
    (ctx, none)

/-! ## The convergence driver (`lbfgsb` of `yorick/lbfgsb.i`) -/

/-- A `ftol`/`gtol`/`xtol` keyword value: a scalar relative tolerance or an
`[absolute, relative]` pair. -/
inductive TolArg where
  | scalar (t : ℚ)
  | pair (a r : ℚ)

/-- The parsed driver tolerances and budgets.  `fatol = none` encodes −∞
(the scalar-`ftol` default) and `maxiter`/`maxeval` `= none` encode the
unlimited (+∞) defaults, so the comparisons `f ≤ fatol`,
`iters ≥ maxiter`, `evals ≥ maxeval` are false there, exactly as the
floating-point comparisons with ∓∞ are in Yorick. -/
structure Settings where
  fatol : Option ℚ
  frtol : ℚ
  gatol : ℚ
  grtol : ℚ
  xatol : ℚ
  xrtol : ℚ
  maxiter : Option ℕ
  maxeval : Option ℕ
deriving DecidableEq

/-- Tolerance parsing of `lbfgsb.i` (lines 120–140): a scalar `ftol` means
`fatol = -Inf`, `frtol = max(0, ftol)`; a pair is clamped componentwise. -/
def parse_ftol : TolArg → Option ℚ × ℚ
  | .scalar t => (none, max 0 t)
  | .pair a r => (some (max 0 a), max 0 r)

/-- Tolerance parsing for `gtol` and `xtol`: a scalar means absolute
tolerance 0; both components are clamped to be nonnegative. -/
def parse_gxtol : TolArg → ℚ × ℚ
  | .scalar t => (0, max 0 t)
  | .pair a r => (max 0 a, max 0 r)

/-- Assemble the driver settings from the keyword values, as the prologue of
`lbfgsb` does. -/
def mkSettings (ftol gtol xtol : TolArg) (maxiter maxeval : Option ℕ) : Settings :=
  let fp := parse_ftol ftol
  let gp := parse_gxtol gtol
  let xp := parse_gxtol xtol
  { fatol := fp.1, frtol := fp.2
    gatol := gp.1, grtol := gp.2
    xatol := xp.1, xrtol := xp.2
    maxiter := maxiter, maxeval := maxeval }

/-- The model of `lbfgsb_pgnorm2` (the Euclidean norm of the projected
gradient).  Its implementation is not among the provided sources (it is
declared `extern` in `lbfgsb.i`); the driver model takes it as an opaque
parameter, which none of the verified claims depend on. -/
def Pgnorm (κ : Type) : Type := Ctx κ → List ℚ → List ℚ → ℚ

/-- The user's objective callback `fg`: value and gradient at `x`. -/
def Fg : Type := List ℚ → ℚ × List ℚ

/-- The local variables of the `lbfgsb` driver loop (`lbfgsb.i`), plus
`evalTrace`, a ghost list recording every objective value returned by `fg`
during the run (it influences nothing). `bestF = none` encodes the initial
`best_f = +Inf`. -/
structure DrvState (κ : Type) where
  ctx : Ctx κ
  x : List ℚ
  f : ℚ
  g : List ℚ
  bestF : Option ℚ
  bestX : List ℚ
  bestG : List ℚ
  evals : ℕ
  iters : ℕ
  f0 : ℚ
  gtest : Option ℚ
  x0 : List ℚ
  xtest : Bool
  evalTrace : List ℚ
deriving DecidableEq

/-- The forced-termination reasons used by the driver (`lbfgsb.i`). -/
def msgWarnEvals : List Char := ("WARNING: Too many function evaluations").toList

/-- See `msgWarnEvals`. -/
def msgWarnIters : List Char := ("WARNING: Too many algorithm iterations").toList

/-- See `msgWarnEvals`. -/
def msgStopGnorm : List Char := ("STOP: ‖∇f(x)‖ ≤ max(gatol, grtol⋅‖∇f(x0)‖)").toList

/-- See `msgWarnEvals`. -/
def msgStopFatol : List Char := ("STOP: f(x) ≤ fatol").toList

/-- See `msgWarnEvals`. -/
def msgStopFrtol : List Char := ("STOP: |Δf(x)| ≤ frtol⋅|f(x)|").toList

/-- See `msgWarnEvals`. -/
def msgStopXtol : List Char := ("STOP: ‖Δx| ≤ max(xatol, xrtol⋅‖x‖)").toList

/-- Model of `task = lbfgsb_stop(ctx, msg)` inside the driver: all the driver's
reasons carry a valid prefix, so `Y_lbfgsb_stop` reduces to
`lbfgsb_set_task`. -/
def forceStop (s : DrvState κ) (msg : List Char) : DrvState κ :=
  { s with ctx := lbfgsb_set_task s.ctx msg }

/-- Model of `task = lbfgsb_iterate(ctx, x, f, g)` at the top of the driver loop:
the context and the in/out variables are updated in place. -/
def applyIterate (kernel : Kernel κ) (s : DrvState κ) : DrvState κ :=
  let r := lbfgsb_iterate kernel s.ctx s.x s.f s.g
  { s with ctx := r.ctx, x := r.x, f := r.f, g := r.g }

/-- The test `evals >= maxeval` (false for the unlimited default). -/
def evalBudget (st : Settings) (evals : ℕ) : Bool :=
  match st.maxeval with
  | none => false
  | some me => decide (me ≤ evals)

/-- The test `iters >= maxiter` (false for the unlimited default). -/
def iterBudget (st : Settings) (iters : ℕ) : Bool :=
  match st.maxiter with
  | none => false
  | some mi => decide (mi ≤ iters)

/-- Yorick's `abs` on a scalar (equal to `|·|`, see `rabs_eq_abs`; spelled
out so that concrete runs reduce inside the kernel). -/
def rabs (q : ℚ) : ℚ := if q < 0 then -q else q

/-- The test `f <= fatol` (false for the `fatol = -Inf` default). -/
def fatolTest (st : Settings) (f : ℚ) : Bool :=
  match st.fatol with
  | none => false
  | some a => decide (f ≤ a)

/-- Sum of squares of a vector. -/
def sumSq (l : List ℚ) : ℚ := (l.map (fun q => q * q)).foldr (· + ·) 0

/-- Componentwise difference `x - x0` (`s = x - x0` in the driver). -/
def vsub (a b : List ℚ) : List ℚ := (a.zip b).map (fun p => p.1 - p.2)

/-- The driver's step test
`snorm <= xatol || (xrtol > 0 && snorm <= xrtol*sqrt(sum(x*x)))` with
`snorm = sqrt(sum(s*s))`, stated on the squares: since the parsed `xatol`
is `max(0,·) ≥ 0` and the second comparison is guarded by `xrtol > 0`, both
sides of each comparison are nonnegative and comparing the squares is exact
(no square roots are needed over ℚ). -/
def stepTest (st : Settings) (x x0 : List ℚ) : Bool :=
  let ssq := sumSq (vsub x x0)
  decide (ssq ≤ st.xatol * st.xatol) ||
    (decide (0 < st.xrtol) && decide (ssq ≤ st.xrtol * st.xrtol * sumSq x))

/-- The `task == LBFGSB_FG` evaluation branch of the driver loop: call `fg`,
count the evaluation, and record `(f, x, g)` as incumbent when `f` is
strictly below the best seen so far (`f < best_f`, with `best_f` initially
`+Inf`).  The ghost trace gets the new value appended. -/
def fgEval (fg : Fg) (s : DrvState κ) : DrvState κ :=
  let fv := (fg s.x).1
  let gv := (fg s.x).2
  let better := match s.bestF with | none => true | some b => decide (fv < b)
  { s with
      f := fv
      g := gv
      evals := s.evals + 1
      evalTrace := s.evalTrace ++ [fv]
      bestF := if better then some fv else s.bestF
      bestX := if better then s.x else s.bestX
      bestG := if better then gv else s.bestG }

/-- The `task == LBFGSB_NEW_X` block of the driver loop: freeze the gradient
threshold on first use, run the gradient / absolute-function /
relative-function / step tests (first hit forces a `STOP` reason), then
count the iteration and apply the iteration budget (which can overwrite a
just-forced reason, as in the source).  Note the relative function test
compares `f` with the variable `f0`, which the driver initializes to `0.0`
before the loop and never updates. -/
def newxBlock (pgnorm : Pgnorm κ) (st : Settings) (s : DrvState κ) : DrvState κ :=
  let gnorm := pgnorm s.ctx s.x s.g
  let gt := match s.gtest with | none => max st.gatol (st.grtol * gnorm) | some t => t
  let ctx1 :=
    if gnorm ≤ gt then lbfgsb_set_task s.ctx msgStopGnorm
    else if fatolTest st s.f then lbfgsb_set_task s.ctx msgStopFatol
    else if 0 < s.iters ∧ rabs (s.f - s.f0) ≤ st.frtol * max (rabs s.f) (rabs s.f0) then
      lbfgsb_set_task s.ctx msgStopFrtol
    else if s.xtest = true ∧ stepTest st s.x s.x0 = true then
      lbfgsb_set_task s.ctx msgStopXtol
    else s.ctx
  let iters1 := s.iters + 1
  let ctx2 := if iterBudget st iters1 then lbfgsb_set_task ctx1 msgWarnIters else ctx1
  { s with ctx := ctx2, gtest := some gt, iters := iters1 }

/-- The `x0 = x` refresh at the bottom of the loop (`if (xtest && evals > 1)`). -/
def updX0 (s : DrvState κ) : DrvState κ :=
  { s with x0 := if s.xtest = true ∧ 1 < s.evals then s.x else s.x0 }

/-- One pass through the driver's `while` loop body.  The boolean is `true`
when the loop continues (the `continue` after an `fg` evaluation, or the
bottom-of-loop check `task == NEW_X`) and `false` when it breaks. -/
def drvStep (kernel : Kernel κ) (pgnorm : Pgnorm κ) (fg : Fg) (st : Settings)
    (s : DrvState κ) : DrvState κ × Bool :=
  let s1 := applyIterate kernel s
  if s1.ctx.task = LTask.FG then
    if evalBudget st s1.evals then (forceStop s1 msgWarnEvals, false)
    else (fgEval fg s1, true)
  else
    let s2 := if s1.ctx.task = LTask.NEW_X then newxBlock pgnorm st s1 else s1
    if s2.ctx.task = LTask.NEW_X then (updX0 s2, true) else (s2, false)

/-- The driver loop, indexed by fuel: `none` when the loop has not exited
within `fuel` passes. -/
def drvRun (kernel : Kernel κ) (pgnorm : Pgnorm κ) (fg : Fg) (st : Settings) :
    ℕ → DrvState κ → Option (DrvState κ)
  | 0, _ => none
  | n + 1, s =>
    match drvStep kernel pgnorm fg st s with
    | (s1, true) => drvRun kernel pgnorm fg st n s1
    | (s1, false) => some s1

/-- The driver's loop-local initialization (`lbfgsb.i` lines 160–176):
`f = 0`, a zero gradient, no incumbent, zero counters, `f0 = f`, an unset
gradient threshold, and `xtest` iff a step tolerance is configured. -/
def drvInit (ctx0 : Ctx κ) (xinit : List ℚ) (st : Settings) : DrvState κ :=
  { ctx := ctx0
    x := xinit
    f := 0
    g := List.replicate xinit.length 0
    bestF := none
    bestX := []
    bestG := []
    evals := 0
    iters := 0
    f0 := 0
    gtest := none
    x0 := xinit
    xtest := decide (0 < st.xatol) || decide (0 < st.xrtol)
    evalTrace := [] }

/-- The epilogue of the driver (`lbfgsb.i` lines 244–249): if the
incumbent's objective value is strictly below the final `f`, return the
incumbent `(f, g, x)` instead of the kernel's final iterate. -/
def drvExit (s : DrvState κ) : DrvState κ :=
  match s.bestF with
  | none => s
  | some b => if b < s.f then { s with f := b, g := s.bestG, x := s.bestX } else s

/-- The full convergence driver `lbfgsb` of `lbfgsb.i` on an already
configured context: run the loop from the initial state and apply the
best-point restore on exit. -/
def lbfgsb_driver (fuel : ℕ) (kernel : Kernel κ) (pgnorm : Pgnorm κ) (fg : Fg)
    (st : Settings) (ctx0 : Ctx κ) (xinit : List ℚ) : Option (DrvState κ) :=
  (drvRun kernel pgnorm fg st fuel (drvInit ctx0 xinit st)).map drvExit

/-- The context preparation of the driver (`lbfgsb.i` lines 147–157):
`lbfgsb_create` followed by `lbfgsb_config` with the user bounds (`none`
keeps a bound unlimited), `print = -1`, `factr = 0` and `pgtol = 0` (the
kernel-internal tests are disabled; the driver supplies its own). -/
def mkDriverCtx (n m : ℕ) (k0 : κ) (lower upper : Option (List FP)) : Ctx κ :=
  let ctx := lbfgsb_create n m k0
  { ctx with
      lower := lower.getD ctx.lower
      upper := upper.getD ctx.upper
      factr := 0
      pgtol := 0
      print := -1 }

/-! ## Spec-side definitions (for refinement comparisons) -/

/-- The bound classification in the spec's words (§4.1): both bounds finite
→ `both` (2); only the lower finite → `lower-only` (1); only the upper
finite → `upper-only` (3); neither finite → `unconstrained` (0), where
±∞ counts as not finite. -/
def classify_spec (lo hi : FP) : ℤ :=
  if lo.finite then (if hi.finite then 2 else 1)
  else (if hi.finite then 3 else 0)

/-- The amended classification: a lower bound is present iff `lo ≠ -∞` and
an upper bound iff `hi ≠ +∞` — i.e. a `+∞` lower bound (or a `-∞` upper
bound) still counts as a present bound, unlike under `classify_spec`. -/
def classify_spec_amended (lo hi : FP) : ℤ :=
  if lo = FP.ninf then (if hi = FP.pinf then 0 else 3)
  else (if hi = FP.pinf then 1 else 2)

/-- A bound pair rejected by the classifier: NaN on either side, or
`lower > upper`. -/
def badBoundPair (p : FP × FP) : Bool :=
  p.1.isnan || p.2.isnan || FP.gt p.1 p.2

/-- The phrase "trimmed to buffer width" (spec §8) made precise: truncated to the buffer width with
the trailing spaces stripped. -/
def trimToWidth (s : List Char) : List Char :=
  stripTrailingSpaces (s.take LBFGSB_TASK_LENGTH)

/-- The spec's relative function test with `f_prev` the objective value at
the previous iterate: `|f − f_prev| ≤ frtol ⋅ max(|f|, |f_prev|)`. -/
def funcRelTestSpec (frtol f fprev : ℚ) : Bool :=
  decide (rabs (f - fprev) ≤ frtol * max (rabs f) (rabs fprev))

/-- The floating-point workspace length allocated by `lbfgsb_create`
(`clbfgsb.c`, current L-BFGS-B 3.0 formula): `(2m+5)n + (11m+8)m`. -/
def n_wa (n m : ℕ) : ℕ := (2 * m + 5) * n + (11 * m + 8) * m

/-- The offset of the latest-iterate snapshot inside the floating-point
workspace (`lbfgsb_get_latest_x` of `clbfgsb.c`): `3n + 2mn + 11m²`. -/
def latest_x_offset (n m : ℕ) : ℕ := 3 * n + 2 * m * n + 11 * m * m

/-- The kernel's saved-state arrays of the context's private workspace
(`lbfgsb.h`, staged with `clbfgsb_test2.c`: `integer isave[44]` embedded in
`struct lbfgsb_context`).  Only `isave`, written by the Fortran kernel
`setulb_` through its in/out `isave` argument and read by the diagnostic
macros below, is kept explicit in this instantiation of the kernel-state
parameter `κ`. -/
structure KIsave where
  isave : List ℤ
deriving DecidableEq

/-- Macro `LBFGSB_ISAVE_(ctx, i)` of `lbfgsb.h`: `(ctx)->wrks.isave[i]`. -/
def LBFGSB_ISAVE_ (ctx : Ctx KIsave) (i : ℕ) : ℤ := ctx.kstate.isave.getD i 0

/-- Macro `LBFGSB_NUM_ITER(ctx)` of `lbfgsb.h`: `isave[29]`, the number of
the current iteration. -/
def LBFGSB_NUM_ITER (ctx : Ctx KIsave) : ℤ := LBFGSB_ISAVE_ ctx 29

/-- Macro `LBFGSB_NTOT_FG(ctx)` of `lbfgsb.h`: `isave[33]`, the total number
of function and gradient evaluations. -/
def LBFGSB_NTOT_FG (ctx : Ctx KIsave) : ℤ := LBFGSB_ISAVE_ ctx 33

/-- Macro `LBFGSB_NTOT_SKIP(ctx)` of `lbfgsb.h`: `isave[25]`, the total
number of skipped BFGS updates before the current iteration. -/
def LBFGSB_NTOT_SKIP (ctx : Ctx KIsave) : ℤ := LBFGSB_ISAVE_ ctx 25

/-! ## Concrete instances for witnesses and counterexamples

The Fortran kernel is opaque (spec §1/§6; its source is not among the
provided files), so concrete runs of the driver use scripted
reverse-communication oracles: kernel models that answer the protocol's
`FG`/`NEW_X`/terminal signals with a counter as saved state, as the
contract of §6 allows. -/

/-- A kernel model that leaves everything unchanged (used where the claim
asserts the kernel is not reached at all). -/
def idKernel : Kernel Unit := fun ctx x f g => ⟨ctx.kstate, ctx.taskBuf, x, f, g⟩

/-- A constant projected-gradient-norm model (the claims under study never
depend on the value of `lbfgsb_pgnorm2`). -/
def onePgnorm {κ : Type} : Pgnorm κ := fun _ _ _ => 1

/-- Scripted oracle: asks `FG` on its first call and reports convergence on
the second. -/
def c1kernel : Kernel ℕ := fun ctx x f g =>
  ⟨ctx.kstate + 1,
    set_task_buf (if ctx.kstate % 2 = 0 then ("FG").toList
      else ("CONVERGENCE: REL_REDUCTION_OF_F_<=_FACTR*EPSMCH").toList),
    x, f, g⟩

/-- An objective model with constant value 5. -/
def c1fg : Fg := fun x => (5, x)

/-- Driver settings with every test disabled and no budgets. -/
def c1st : Settings := mkSettings (.scalar 0) (.scalar 0) (.scalar 0) none none

/-- A fresh unconstrained 1-variable context for the `c1` run. -/
def c1ctx : Ctx ℕ := mkDriverCtx 1 1 0 none none

/-- A terminating two-pass driver run: one evaluation (f = 5), then
convergence. -/
def c1res : DrvState ℕ :=
  (lbfgsb_driver 5 c1kernel onePgnorm c1fg c1st c1ctx [3]).getD (drvInit c1ctx [3] c1st)

/-- Scripted oracle alternating `FG` and `NEW_X` forever (a kernel that
keeps iterating, as steepest descent would). -/
def c7kernel : Kernel ℕ := fun ctx x f g =>
  ⟨ctx.kstate + 1,
    set_task_buf (if ctx.kstate % 2 = 0 then ("FG").toList else ("NEW_X").toList),
    x, f, g⟩

/-- An objective model with constant value 2: consecutive iterates have
identical objective values, so the spec's relative function test fires at
the second `NEW_X`. -/
def c7fg : Fg := fun x => (2, x)

/-- Driver settings for the `c7` run: `frtol = 1/2` (scalar `ftol`),
gradient and step tests disabled, `maxeval = 3` as a safety net. -/
def c7st : Settings := mkSettings (.scalar (1 / 2)) (.scalar 0) (.scalar 0) none (some 3)

/-- A fresh unconstrained 1-variable context for the `c7` run. -/
def c7ctx : Ctx ℕ := mkDriverCtx 1 5 0 none none

/-- The `c7` driver run (fuel 20 is ample: it exits on the 7th pass). -/
def c7run : Option (DrvState ℕ) :=
  lbfgsb_driver 20 c7kernel onePgnorm c7fg c7st c7ctx [3]

/-- The extended Rosenbrock objective of `lbfgsb-tests.i`
(`lbfgsb_test_fg`), specialized to 2 variables:
`t = x₂ − x₁²`, `f = (x₁−1)² + 4t²`, `g = ((2−16t)x₁ − 2, 8t)`. -/
def lbfgsb_test_fg2 : Fg := fun x =>
  match x with
  | [x1, x2] =>
    let t := x2 - x1 * x1
    ((x1 - 1) * (x1 - 1) + 4 * (t * t), [(2 - 16 * t) * x1 - 2, 8 * t])
  | _ => (0, x)

/-- Scripted oracle for the `c8` run: on even calls it asks `FG` at a trial
point that advances the first variable by one; on odd calls it accepts the
trial point as a `NEW_X` iterate. -/
def c8kernel : Kernel ℕ := fun ctx x f g =>
  let k := ctx.kstate
  if k % 2 = 0 then
    ⟨k + 1, set_task_buf (("FG").toList), [3 + ((k / 2 + 1 : ℕ) : ℚ), 3], f, g⟩
  else
    ⟨k + 1, set_task_buf (("NEW_X").toList), x, f, g⟩

/-- The driver's default tolerances (`ftol=1e-8`, `gtol=1e-5`, `xtol=1e-6`)
with `maxeval = 5`, per the spec's scenario. -/
def c8st : Settings :=
  mkSettings (.scalar (1 / 100000000)) (.scalar (1 / 100000)) (.scalar (1 / 1000000))
    none (some 5)

/-- The sample bounded problem's context: 2 variables, `mem = 5`,
`lower = [1, -100]`, `upper = [100, 100]`. -/
def c8ctx : Ctx ℕ :=
  mkDriverCtx 2 5 0 (some [FP.fin 1, FP.fin (-100)]) (some [FP.fin 100, FP.fin 100])

/-- The `maxeval = 5` scenario run: the sample bounded Rosenbrock objective
from the start point `[3, 3]` under the scripted oracle. -/
def c8run : Option (DrvState ℕ) :=
  lbfgsb_driver 20 c8kernel onePgnorm lbfgsb_test_fg2 c8st c8ctx [3, 3]

/-- A context in the `ERROR` state (as produced by an incompatible-bounds
failure). -/
def ctxErr : Ctx Unit := lbfgsb_set_task (lbfgsb_create 1 1 ()) msgErrIncompat

/-- The spec's invalid-bounds scenario: `size = 1`, `lower = [5]`,
`upper = [1]`. -/
def ctxBadBounds : Ctx Unit :=
  mkDriverCtx 1 1 () (some [FP.fin 5]) (some [FP.fin 1])

/-- The saved state of a freshly created context: `lbfgsb_create` clears the
whole context with `memset(ctx, 0, sizeof(lbfgsb_context))`, so the embedded
`isave[44]` starts all zero. -/
def kIsaveZero : KIsave := ⟨List.replicate 44 0⟩

/-- A kernel model that finishes a run leaving that run's counters in the
in/out `isave` array, as `setulb_` does: 1 skipped update (`isave[25]`),
2 iterations (`isave[29]`), 7 evaluations (`isave[33]`), and a convergence
report in the status buffer. -/
def countersKernel : Kernel KIsave := fun ctx x f g =>
  ⟨⟨((ctx.kstate.isave.set 25 1).set 29 2).set 33 7⟩,
    set_task_buf (("CONVERGENCE: REL_REDUCTION_OF_F_<=_FACTR*EPSMCH").toList), x, f, g⟩

/-- A context whose kernel workspace holds the counters of an earlier run
(2 iterations, 7 evaluations, 1 skipped update): created with zeroed
counters (the `memset` of `lbfgsb_create`) and stepped once with a kernel
that ends a run, saving the counters in `isave`. -/
def ctx9 : Ctx KIsave :=
  (lbfgsb_iterate countersKernel (lbfgsb_create 1 1 kIsaveZero) [3] 0 [0]).ctx

/-- Invariant of the driver loop: the incumbent objective value `bestF` is a
lower bound of every objective value evaluated so far, and is unset only
while nothing has been evaluated. -/
def BestInv (s : DrvState κ) : Prop :=
  match s.bestF with
  | none => s.evalTrace = []
  | some b => ∀ v ∈ s.evalTrace, b ≤ v

/-! ## Helper lemmas -/

theorem stripTrailingSpaces_cons (c : Char) (t : List Char) :
    stripTrailingSpaces (c :: t) =
      if c = ' ' ∧ stripTrailingSpaces t = [] then [] else c :: stripTrailingSpaces t := rfl

theorem stripTrailingSpaces_replicate_space (k : ℕ) :
    stripTrailingSpaces (List.replicate k ' ') = [] := by
  induction k with
  | zero => rfl
  | succ n ih => rw [List.replicate_succ, stripTrailingSpaces_cons, if_pos ⟨rfl, ih⟩]

theorem stripTrailingSpaces_append_spaces (l : List Char) (k : ℕ) :
    stripTrailingSpaces (l ++ List.replicate k ' ') = stripTrailingSpaces l := by
  induction l with
  | nil => simpa using stripTrailingSpaces_replicate_space k
  | cons c t ih =>
    rw [List.cons_append, stripTrailingSpaces_cons, stripTrailingSpaces_cons, ih]

theorem takeWhile_eq_self_of (p : Char → Bool) (l : List Char)
    (h : ∀ c ∈ l, p c = true) : List.takeWhile p l = l := by
  induction l with
  | nil => rfl
  | cons c t ih =>
    rw [List.takeWhile_cons, h c (List.mem_cons_self c t)]
    exact congrArg (c :: ·) (ih fun d hd => h d (List.mem_cons_of_mem c hd))

theorem rabs_eq_abs (q : ℚ) : rabs q = |q| := by
  unfold rabs
  by_cases h : q < 0
  · rw [if_pos h, abs_of_neg h]
  · rw [if_neg h, abs_of_nonneg (le_of_not_lt h)]

/-! ## Claim theorems -/

/-- C5: for every reason string of length at most the buffer width (60) with
no NUL characters (a C string cannot contain NUL) that starts with an
accepted prefix, decoding the encoded buffer yields the reason trimmed to
buffer width: encoding truncates/right-pads with spaces, decoding strips the
trailing spaces again. -/
theorem task_codec_roundtrip (s : List Char) (h1 : s.length ≤ LBFGSB_TASK_LENGTH)
    (h2 : NUL ∉ s) (h3 : valid_stop_reason s = true) :
    lbfgsb_get_task_string (set_task_buf s) = trimToWidth s := by
  have hbuf : set_task_buf s = s ++ List.replicate (LBFGSB_TASK_LENGTH - s.length) ' ' := by
    unfold set_task_buf
    rw [min_eq_left h1]
    simp only [List.take_length]
  have hlenbuf : (set_task_buf s).length ≤ LBFGSB_TASK_LENGTH := by
    rw [hbuf, List.length_append, List.length_replicate]
    omega
  have hall : ∀ c ∈ set_task_buf s, (c != NUL) = true := by
    intro c hc
    rw [hbuf] at hc
    rcases List.mem_append.mp hc with hc | hc
    · have : c ≠ NUL := fun he => h2 (he ▸ hc)
      simpa using this
    · rw [List.eq_of_mem_replicate hc]
      decide
  unfold lbfgsb_get_task_string trimToWidth
  rw [List.take_of_length_le h1]
  rw [List.take_of_length_le hlenbuf, takeWhile_eq_self_of _ _ hall, hbuf,
    stripTrailingSpaces_append_spaces]

/-- C5 witness: the concrete reason `"STOP: user request  "` (two trailing
spaces, length 20 ≤ 60) round-trips to its trimmed form. -/
theorem task_codec_roundtrip_witness :
    lbfgsb_get_task_string (set_task_buf (("STOP: user request  ").toList)) =
      trimToWidth (("STOP: user request  ").toList) :=
  task_codec_roundtrip (("STOP: user request  ").toList) (by decide) (by decide) (by decide)

/-- C10: for every context size `n ≥ 1` and memory `m ≥ 1`, the `n`-element
latest-iterate view at offset `3n + 2mn + 11m²` lies entirely within the
allocated floating-point workspace of `(2m+5)n + (11m+8)m` elements. -/
theorem latest_x_view_in_workspace (n m : ℕ) (hn : 1 ≤ n) (hm : 1 ≤ m) :
    latest_x_offset n m + n ≤ n_wa n m := by
  unfold latest_x_offset n_wa
  nlinarith

/-- C10 witness: the bound at the concrete sizes `n = 2`, `m = 3`. -/
theorem latest_x_view_in_workspace_witness :
    latest_x_offset 2 3 + 2 ≤ n_wa 2 3 :=
  latest_x_view_in_workspace 2 3 (by norm_num) (by norm_num)

/-- C6: for every context and every reason that does not start with one of
the four accepted prefixes, the forced-termination operation of `ylbfgsb.c`
raises `InvalidReasonError` (no task is produced) and leaves the context —
in particular its task — unchanged. -/
theorem stop_invalid_reason_noop {κ : Type} (ctx : Ctx κ) (reason : List Char)
    (h : valid_stop_reason reason = false) :
    y_lbfgsb_stop ctx reason = (ctx, none) ∧
    (y_lbfgsb_stop ctx reason).1.task = ctx.task := by
  unfold y_lbfgsb_stop
  rw [h]
  exact ⟨rfl, rfl⟩

/-- C6 witness: a lower-case prefix is rejected and the context's task stays
`START`. -/
theorem stop_invalid_reason_noop_witness :
    y_lbfgsb_stop (lbfgsb_create 1 1 ()) (("stop: lower case").toList) =
      (lbfgsb_create 1 1 (), none) ∧
    (y_lbfgsb_stop (lbfgsb_create 1 1 ()) (("stop: lower case").toList)).1.task =
      (lbfgsb_create 1 1 ()).task :=
  stop_invalid_reason_noop (lbfgsb_create 1 1 ()) (("stop: lower case").toList) (by decide)

/-- C2 (amended): a step on a context whose task is already `ERROR` does not
reach the kernel and is a pure no-op — the context (including the kernel's
saved state) and `x`, `f`, `g` are returned unchanged together with `ERROR`,
for every kernel; and an explicit reset returns the task to `START`.  (The
claim's further assertion that *only* a reset leaves the `ERROR` state is
refuted by `error_state_left_without_reset`.) -/
theorem iterate_error_noop {κ : Type} (kernel : Kernel κ) (ctx : Ctx κ) (x : List ℚ)
    (f : ℚ) (g : List ℚ) (h : ctx.task = LTask.ERROR) :
    lbfgsb_iterate kernel ctx x f g = ⟨ctx, x, f, g, LTask.ERROR⟩ ∧
    (lbfgsb_reset ctx false).task = LTask.START := by
  refine ⟨?_, rfl⟩
  simp [lbfgsb_iterate, h]

/-- C2 witness: the no-op at a concrete `ERROR` context with the identity
kernel model. -/
theorem iterate_error_noop_witness :
    lbfgsb_iterate idKernel ctxErr [1] 0 [0] = ⟨ctxErr, [1], 0, [0], LTask.ERROR⟩ ∧
    (lbfgsb_reset ctxErr false).task = LTask.START :=
  iterate_error_noop idKernel ctxErr [1] 0 [0] (by decide)

/-- C2 counterexample: the claim's clause "only an explicit reset leaves the
ERROR state" is false — the forced set-task operation (reachable through
`lbfgsb_stop` with any accepted prefix) applied to a context in the `ERROR`
state replaces the task by `STOP` without any reset. -/
theorem error_state_left_without_reset :
    ctxErr.task = LTask.ERROR ∧
    (lbfgsb_set_task ctxErr (("STOP: stopped by user").toList)).task = LTask.STOP ∧
    LTask.STOP ≠ LTask.ERROR := by decide

/-- C9 (amended): `lbfgsb_reset` always returns the task to `START`; with
`bounds=false` the bound arrays and constraint classes are unchanged, with
`bounds=true` every lower bound becomes −∞, every upper bound +∞ and every
constraint class unconstrained (code 0).  The kernel's saved workspace —
which holds the iteration/evaluation/skip counters read by the diagnostic
accessors — is untouched in both cases.  (The claim's assertion that all
counters are 0 after reset is refuted by `reset_keeps_stale_counters`.) -/
theorem lbfgsb_reset_spec {κ : Type} (ctx : Ctx κ) :
    ((lbfgsb_reset ctx false).task = LTask.START ∧
      (lbfgsb_reset ctx false).lower = ctx.lower ∧
      (lbfgsb_reset ctx false).upper = ctx.upper ∧
      (lbfgsb_reset ctx false).nbd = ctx.nbd ∧
      (lbfgsb_reset ctx false).kstate = ctx.kstate) ∧
    ((lbfgsb_reset ctx true).task = LTask.START ∧
      (lbfgsb_reset ctx true).lower = List.replicate ctx.siz FP.ninf ∧
      (lbfgsb_reset ctx true).upper = List.replicate ctx.siz FP.pinf ∧
      (lbfgsb_reset ctx true).nbd = List.replicate ctx.siz 0 ∧
      (lbfgsb_reset ctx true).kstate = ctx.kstate) :=
  ⟨⟨rfl, rfl, rfl, rfl, rfl⟩, ⟨rfl, rfl, rfl, rfl, rfl⟩⟩

/-- C9 counterexample: `ctx9` is reached by `lbfgsb_create` (its `memset`
zeroes the embedded `isave`) followed by one kernel step that ends a run
with 7 evaluations, 2 iterations and 1 skip saved in `isave`; resetting it
leaves those counters readable unchanged — they are not 0 after reset,
refuting the claim's "all counters are 0". -/
theorem reset_keeps_stale_counters :
    LBFGSB_NTOT_FG (lbfgsb_create 1 1 kIsaveZero) = 0 ∧
    LBFGSB_NTOT_FG ctx9 = 7 ∧
    LBFGSB_NTOT_FG (lbfgsb_reset ctx9 false) = 7 ∧
    LBFGSB_NUM_ITER (lbfgsb_reset ctx9 false) = 2 ∧
    LBFGSB_NTOT_SKIP (lbfgsb_reset ctx9 false) = 1 ∧
    (lbfgsb_reset ctx9 false).task = LTask.START ∧
    (7 : ℤ) ≠ 0 := by decide

/-- C4 (amended): for every valid bound pair (no NaN, `lower ≤ upper`), the
classifier is a pure function of the pair producing exactly one of the four
codes, and a bound counts as present iff it differs from its infinity
sentinel of the corresponding sign (`lower > −∞`, `upper < +∞`): a `+∞`
lower bound (or a `−∞` upper bound) still counts as a present bound.
(The claim's finiteness-based reading is refuted at `(+∞, +∞)` by
`classify_infinite_pair_counterexample`.) -/
theorem classify_of_valid_pair (lo hi : FP) (h1 : lo.isnan = false)
    (h2 : hi.isnan = false) (h3 : FP.gt lo hi = false) :
    classify lo hi = classify_spec_amended lo hi ∧
    (classify lo hi = 0 ∨ classify lo hi = 1 ∨ classify lo hi = 2 ∨ classify lo hi = 3) := by
  cases lo <;> cases hi <;>
    simp_all [classify, classify_spec_amended, FP.gt, FP.lt, FP.isnan]

/-- C4 witness: the pair `(1, +∞)` is valid and classifies as `lower-only`
(code 1) in agreement with the amended classification. -/
theorem classify_of_valid_pair_witness :
    classify (FP.fin 1) FP.pinf = classify_spec_amended (FP.fin 1) FP.pinf ∧
    (classify (FP.fin 1) FP.pinf = 0 ∨ classify (FP.fin 1) FP.pinf = 1 ∨
      classify (FP.fin 1) FP.pinf = 2 ∨ classify (FP.fin 1) FP.pinf = 3) :=
  classify_of_valid_pair (FP.fin 1) FP.pinf (by decide) (by decide) (by decide)

/-- C4 counterexample: `(+∞, +∞)` is a valid pair (no NaN and
`lower ≤ upper`), neither bound is finite, yet the code classifies it as
`lower-only` (code 1), not `unconstrained` (code 0) as the claim's
finiteness rule demands. -/
theorem classify_infinite_pair_counterexample :
    FP.isnan FP.pinf = false ∧ FP.gt FP.pinf FP.pinf = false ∧
    FP.finite FP.pinf = false ∧
    classify FP.pinf FP.pinf = 1 ∧ classify_spec FP.pinf FP.pinf = 0 ∧
    classify FP.pinf FP.pinf ≠ classify_spec FP.pinf FP.pinf := by decide

theorem check_loop_finds_bad :
    ∀ (los his : List FP) (bs : List ℤ), his.length = los.length →
      bs.length = los.length →
      (∃ p ∈ los.zip his, badBoundPair p = true) →
      ∃ e, (check_bounds_loop los his bs).2 = some e ∧
        (e = msgErrLower ∨ e = msgErrUpper ∨ e = msgErrIncompat) := by
  intro los
  induction los with
  | nil => intro his bs _ _ hbad; simp at hbad
  | cons lo los ih =>
    intro his bs hlen1 hlen2 hbad
    cases his with
    | nil => simp at hlen1
    | cons hi his =>
      cases bs with
      | nil => simp at hlen2
      | cons b bs =>
        by_cases c1 : lo.isnan = true
        · exact ⟨msgErrLower, by simp [check_bounds_loop, c1], Or.inl rfl⟩
        · by_cases c2 : hi.isnan = true
          · exact ⟨msgErrUpper, by simp [check_bounds_loop, c1, c2], Or.inr (Or.inl rfl)⟩
          · by_cases c3 : FP.gt lo hi = true
            · exact ⟨msgErrIncompat, by simp [check_bounds_loop, c1, c2, c3],
                Or.inr (Or.inr rfl)⟩
            · have hhead : badBoundPair (lo, hi) = false := by
                simp [badBoundPair, eq_false_of_ne_true c1, eq_false_of_ne_true c2,
                  eq_false_of_ne_true c3]
              have htail : ∃ p ∈ los.zip his, badBoundPair p = true := by
                rcases hbad with ⟨p, hp, hbp⟩
                rcases List.mem_cons.mp (by simpa using hp) with hp1 | hp2
                · rw [hp1] at hbp
                  rw [hhead] at hbp
                  cases hbp
                · exact ⟨p, hp2, hbp⟩
              obtain ⟨e, he, hmsg⟩ :=
                ih his bs (by simpa using hlen1) (by simpa using hlen2) htail
              refine ⟨e, ?_, hmsg⟩
              simp [check_bounds_loop, c1, c2, c3]
              exact he

/-- C3: on the first step call (task `START`), if some index has a NaN
bound or `lower > upper`, the step returns `ERROR` with a descriptive
`"ERROR:"`-prefixed reason and without invoking the opaque kernel: the
result holds for every kernel, the kernel's saved state is untouched and
`x`, `f`, `g` are returned unchanged. -/
theorem first_step_invalid_bounds {κ : Type} (kernel : Kernel κ) (ctx : Ctx κ)
    (x : List ℚ) (f : ℚ) (g : List ℚ) (htask : ctx.task = LTask.START)
    (hlen1 : ctx.upper.length = ctx.lower.length)
    (hlen2 : ctx.nbd.length = ctx.lower.length)
    (hbad : ∃ p ∈ ctx.lower.zip ctx.upper, badBoundPair p = true) :
    (lbfgsb_iterate kernel ctx x f g).task = LTask.ERROR ∧
    (lbfgsb_iterate kernel ctx x f g).ctx.kstate = ctx.kstate ∧
    (lbfgsb_iterate kernel ctx x f g).x = x ∧
    (lbfgsb_iterate kernel ctx x f g).f = f ∧
    (lbfgsb_iterate kernel ctx x f g).g = g ∧
    List.isPrefixOf (("ERROR:").toList)
      (lbfgsb_get_task_string (lbfgsb_iterate kernel ctx x f g).ctx.taskBuf) = true := by
  obtain ⟨e, herr, hmsg⟩ := check_loop_finds_bad ctx.lower ctx.upper ctx.nbd hlen1 hlen2 hbad
  have hcb : lbfgsb_check_bounds ctx =
      lbfgsb_set_task { ctx with nbd := (check_bounds_loop ctx.lower ctx.upper ctx.nbd).1 }
        e := by
    unfold lbfgsb_check_bounds
    rcases hr : check_bounds_loop ctx.lower ctx.upper ctx.nbd with ⟨nbd1, err⟩
    rw [hr] at herr
    simp only at herr
    rw [herr]
  have htE : (lbfgsb_check_bounds ctx).task = LTask.ERROR := by
    rw [hcb]
    show get_task (set_task_buf e) = LTask.ERROR
    rcases hmsg with rfl | rfl | rfl <;> decide
  have hbufE : List.isPrefixOf (("ERROR:").toList)
      (lbfgsb_get_task_string (lbfgsb_check_bounds ctx).taskBuf) = true := by
    rw [hcb]
    show List.isPrefixOf (("ERROR:").toList)
      (lbfgsb_get_task_string (set_task_buf e)) = true
    rcases hmsg with rfl | rfl | rfl <;> decide
  have hiter : lbfgsb_iterate kernel ctx x f g =
      ⟨lbfgsb_check_bounds ctx, x, f, g, (lbfgsb_check_bounds ctx).task⟩ := by
    unfold lbfgsb_iterate
    rw [htask]
    simp [htE]
  rw [hiter]
  refine ⟨htE, ?_, rfl, rfl, rfl, hbufE⟩
  rw [hcb]
  rfl

/-- C3 witness: the spec's scenario — `size = 1`, `lower = [5]`,
`upper = [1]` — makes the very first step call return `ERROR` (with the
`"ERROR: Incompatible bounds"` reason) without reaching the kernel. -/
theorem first_step_invalid_bounds_witness :
    (lbfgsb_iterate idKernel ctxBadBounds [3] 0 [0]).task = LTask.ERROR ∧
    (lbfgsb_iterate idKernel ctxBadBounds [3] 0 [0]).ctx.kstate = ctxBadBounds.kstate ∧
    (lbfgsb_iterate idKernel ctxBadBounds [3] 0 [0]).x = [3] ∧
    (lbfgsb_iterate idKernel ctxBadBounds [3] 0 [0]).f = 0 ∧
    (lbfgsb_iterate idKernel ctxBadBounds [3] 0 [0]).g = [0] ∧
    List.isPrefixOf (("ERROR:").toList)
      (lbfgsb_get_task_string (lbfgsb_iterate idKernel ctxBadBounds [3] 0 [0]).ctx.taskBuf) =
      true :=
  first_step_invalid_bounds idKernel ctxBadBounds [3] 0 [0] (by decide) (by decide)
    (by decide) (by decide)

theorem BestInv_of_eq {κ : Type} (s t : DrvState κ) (h1 : t.bestF = s.bestF)
    (h2 : t.evalTrace = s.evalTrace) (h : BestInv s) : BestInv t := by
  unfold BestInv at *
  rw [h1, h2]
  exact h

theorem BestInv_fgEval {κ : Type} (fg : Fg) (s : DrvState κ) (h : BestInv s) :
    BestInv (fgEval fg s) := by
  unfold BestInv at *
  rcases hb : s.bestF with _ | b
  · rw [hb] at h
    simp only [fgEval, hb]
    intro v hv
    rw [h] at hv
    simp at hv
    rw [hv]
  · rw [hb] at h
    by_cases c : (fg s.x).1 < b
    · simp only [fgEval, hb, decide_eq_true c, if_pos rfl]
      intro v hv
      rcases List.mem_append.mp hv with hv | hv
      · exact le_of_lt (lt_of_lt_of_le c (h v hv))
      · simp at hv
        rw [hv]
    · simp only [fgEval, hb, decide_eq_false c]
      simp only [Bool.false_eq_true, if_false]
      intro v hv
      rcases List.mem_append.mp hv with hv | hv
      · exact h v hv
      · simp at hv
        rw [hv]
        exact le_of_not_lt c

theorem BestInv_drvStep {κ : Type} (kernel : Kernel κ) (pgnorm : Pgnorm κ) (fg : Fg)
    (st : Settings) (s : DrvState κ) (h : BestInv s) :
    BestInv (drvStep kernel pgnorm fg st s).1 := by
  have h1 : BestInv (applyIterate kernel s) := BestInv_of_eq s _ rfl rfl h
  unfold drvStep
  dsimp only
  split_ifs <;>
    first
      | exact BestInv_fgEval fg _ h1
      | exact BestInv_of_eq s _ rfl rfl h

theorem BestInv_drvRun {κ : Type} (kernel : Kernel κ) (pgnorm : Pgnorm κ) (fg : Fg)
    (st : Settings) :
    ∀ (fuel : ℕ) (s r : DrvState κ), BestInv s →
      drvRun kernel pgnorm fg st fuel s = some r → BestInv r := by
  intro fuel
  induction fuel with
  | zero =>
    intro s r _ hr
    exact absurd hr (by simp [drvRun])
  | succ n ih =>
    intro s r hs hr
    have hr1 : (match drvStep kernel pgnorm fg st s with
        | (s1, true) => drvRun kernel pgnorm fg st n s1
        | (s1, false) => some s1) = some r := hr
    rcases hstep : drvStep kernel pgnorm fg st s with ⟨s1, b⟩
    rw [hstep] at hr1
    have hs1 : BestInv s1 := by
      have hp := BestInv_drvStep kernel pgnorm fg st s hs
      rwa [hstep] at hp
    cases b
    · simp only at hr1
      rw [Option.some_inj] at hr1
      rw [hr1] at hs1
      exact hs1
    · exact ih s1 r hs1 hr1

theorem drvExit_le {κ : Type} (s : DrvState κ) (h : BestInv s) :
    ∀ v ∈ (drvExit s).evalTrace, (drvExit s).f ≤ v := by
  unfold BestInv at h
  unfold drvExit
  rcases hb : s.bestF with _ | b
  · rw [hb] at h
    intro v hv
    simp only at hv
    rw [h] at hv
    cases hv
  · rw [hb] at h
    by_cases c : b < s.f
    · simp only [if_pos c]
      intro v hv
      exact h v hv
    · simp only [if_neg c]
      intro v hv
      exact le_trans (le_of_not_lt c) (h v hv)

theorem BestInv_drvInit {κ : Type} (ctx0 : Ctx κ) (xinit : List ℚ) (st : Settings) :
    BestInv (drvInit ctx0 xinit st) := rfl

/-- C1: the objective value returned by the convergence driver is ≤ every
objective value produced by the user's `fg` callback during the run, for
every kernel behaviour, every projected-norm model, every objective, all
settings and every terminating amount of fuel: the driver records `(f,x,g)`
as incumbent whenever an evaluated `f` is strictly below the best seen so
far and returns the incumbent on exit whenever its `f` is strictly below the
final reported `f`. -/
theorem driver_returns_minimum_objective {κ : Type} (fuel : ℕ) (kernel : Kernel κ)
    (pgnorm : Pgnorm κ) (fg : Fg) (st : Settings) (ctx0 : Ctx κ) (xinit : List ℚ)
    (r : DrvState κ) (h : lbfgsb_driver fuel kernel pgnorm fg st ctx0 xinit = some r) :
    ∀ v ∈ r.evalTrace, r.f ≤ v := by
  unfold lbfgsb_driver at h
  rcases hrun : drvRun kernel pgnorm fg st fuel (drvInit ctx0 xinit st) with _ | s
  · rw [hrun] at h
    cases h
  · rw [hrun] at h
    simp only [Option.map_some'] at h
    rw [Option.some_inj] at h
    have hinv : BestInv s :=
      BestInv_drvRun kernel pgnorm fg st fuel _ s (BestInv_drvInit ctx0 xinit st) hrun
    rw [← h]
    exact drvExit_le s hinv

/-- C1 witness: in the concrete two-pass run `c1res` (one evaluation with
value 5, then convergence) the returned objective is ≤ the evaluated
value 5. -/
theorem driver_returns_minimum_objective_witness : c1res.f ≤ 5 :=
  driver_returns_minimum_objective 5 c1kernel onePgnorm c1fg c1st c1ctx [3] c1res
    (by rfl) 5 (by decide)

/-- C7 (code-bug evidence): the driver's relative function test never
compares against the previous iterate's objective value, because the
variable `f0` is set to `0.0` before the loop and never updated (third
conjunct: every loop pass preserves `f0`; fourth: it starts at 0).  In the
concrete run `c7run` the objective is constantly 2 and `frtol = 1/2`, so at
the second `NEW_X` the claim's test `|f − f_prev| ≤ frtol·max(|f|,|f_prev|)`
holds (second conjunct: `|2−2| ≤ (1/2)·2`), yet the run does not stop
there: it continues to the evaluation budget and exits with the
`"WARNING: Too many function evaluations"` reason after 3 evaluations and
3 iterations (first conjunct). -/
theorem relative_function_test_uses_frozen_f0 :
    (c7run.map fun r =>
      (r.ctx.task, lbfgsb_get_task_string r.ctx.taskBuf, r.evals, r.iters, r.f)) =
      some (LTask.WARNING, msgWarnEvals, 3, 3, 2) ∧
    funcRelTestSpec (1 / 2) 2 2 = true ∧
    (∀ (s : DrvState ℕ), (drvStep c7kernel onePgnorm c7fg c7st s).1.f0 = s.f0) ∧
    (drvInit c7ctx [3] c7st).f0 = 0 := by
  refine ⟨by with_unfolding_all rfl, by with_unfolding_all rfl, ?_, rfl⟩
  intro s
  unfold drvStep
  dsimp only
  split_ifs <;> rfl

/-- C8 (amended): with `maxEvaluations = 5` on the sample bounded Rosenbrock
problem (2 variables, `lower = [1,−100]`, `upper = [100,100]`, start
`[3,3]`, default tolerances), the driver forces termination with a WARNING
task — not STOP — whose reason mentions the evaluation limit
(`"WARNING: Too many function evaluations"`), with the evaluation counter
equal to 5 at exit; the budget is checked before computing `f` and `g`, so
the sixth evaluation is never performed. -/
theorem maxeval_scenario_warning_run :
    (c8run.map fun r => (r.ctx.task, lbfgsb_get_task_string r.ctx.taskBuf, r.evals)) =
      some (LTask.WARNING, msgWarnEvals, 5) := by with_unfolding_all rfl

/-- C8 counterexample: in the `maxEvaluations = 5` scenario run the exit
task is not `STOP` (it is `WARNING`, since the driver's forced reason
carries the `"WARNING:"` prefix), refuting the claim's "termination via a
STOP task". -/
theorem maxeval_scenario_not_stop :
    ¬ (c8run.map fun r => r.ctx.task) = some LTask.STOP := by
  have h : (c8run.map fun r => r.ctx.task) = some LTask.WARNING := by
    with_unfolding_all rfl
  rw [h]
  simp

end LbfgsbModel
